import Mathlib

attribute [local semireducible] Rat.add Rat.mul Rat.sub Rat.inv

set_option maxRecDepth 10000

deriving instance DecidableEq for Except

/-!
Verification development for the missing-value detection-and-remediation
engine specified by this repository (spec sections 3-8), together with a
model of the notebook's only executable cell (the seeded Gaussian
histogram script).

The repository itself ships no engine implementation: the engine exists
only as the specification's component contracts.  Every definition below
that embeds an engine component is therefore modelled from the spec, as
its doc comment records, and the theorems check the spec's claims against
that model.
-/

namespace MissingData

/-- Modelled from the spec: a cell value of a tabular dataset is either a
numeric value or a categorical/string value (spec section 3, Dataset). -/
inductive Value where
  | num (q : ℚ)
  | cat (s : String)
  deriving DecidableEq

/-- A cell is either a value or null (missing). -/
abbrev Cell := Option Value

/-- Modelled from the spec: the declared semantic type of a column
(spec section 3, Dataset). -/
inductive ColType where
  | numeric
  | categorical
  deriving DecidableEq

/-- Modelled from the spec: a named column with a declared semantic type
and an ordered sequence of cells (spec section 3, Dataset). -/
structure Column where
  name : String
  ctype : ColType
  cells : List Cell
  deriving DecidableEq

/-- Modelled from the spec: an ordered collection of named columns
(spec section 3, Dataset). -/
structure Dataset where
  cols : List Column
  deriving DecidableEq

/-- Modelled from the spec: per-column remediation directive
(spec section 3, RemediationPolicy). -/
inductive RemediationPolicy where
  | DROP_COLUMN
  | DROP_ROWS
  | IMPUTE_MEDIAN
  | IMPUTE_MODE
  | BIN_NUMERIC (width : ℚ)
  | SENTINEL_CATEGORY (label : String)
  deriving DecidableEq

/-- Modelled from the spec: the error taxonomy of spec section 7. -/
inductive EngineError where
  | CONFIG_ERROR
  | SCHEMA_ERROR
  | DATA_EMPTY
  deriving DecidableEq

/-- The non-null values of a column, in row order. -/
def nonNullValues (cells : List Cell) : List Value :=
  cells.filterMap id

/-- Number of null cells of a column. -/
def nullCount (cells : List Cell) : Nat :=
  (cells.filter (fun c => c.isNone)).length

/-- Numeric view of a value. -/
def asNum : Value → Option ℚ
  | .num q => some q
  | .cat _ => none

/-- The numeric non-null values of a column, in row order. -/
def numericValues (cells : List Cell) : List ℚ :=
  (nonNullValues cells).filterMap asNum

/-- Value-to-frequency mapping over a list of (non-null) values, one entry
per distinct value (spec section 3, ColumnProfile). -/
def freqList (values : List Value) : List (Value × Nat) :=
  values.dedup.map (fun v => (v, values.count v))

/-- Modelled from the spec: the part of ColumnProfile that drives the
recommendation rules of spec section 4.4 (name, declared type, row count,
null count, value-frequency mapping); spec section 3, ColumnProfile. -/
structure ColumnProfile where
  name : String
  ctype : ColType
  rowCount : Nat
  nullCount : Nat
  freqs : List (Value × Nat)
  deriving DecidableEq

/-- Modelled from the spec: ColumnProfiler, spec section 4.1 — computes the
per-column statistics needed downstream, over non-null values. -/
def profileColumn (col : Column) : ColumnProfile :=
  ⟨col.name, col.ctype, col.cells.length, nullCount col.cells,
    freqList (nonNullValues col.cells)⟩

/-- Modelled from the spec: the configuration surface of spec section 6
with its stated defaults. -/
structure Config where
  drop_column_threshold : ℚ
  drop_rows_threshold : ℚ
  std_multiplier : ℚ
  iqr_multiplier : ℚ
  placeholder_frequency_threshold : ℚ
  deriving DecidableEq

/-- The spec's stated default configuration: drop_column_threshold 0.5,
drop_rows_threshold 0.05, std_multiplier 3, iqr_multiplier 1.5,
placeholder_frequency_threshold 0.01 (spec section 6). -/
def defaultConfig : Config :=
  ⟨1/2, 1/20, 3, 3/2, 1/100⟩

/-- Arithmetic mean of a list of rationals (0 for the empty list; callers
guard emptiness). -/
def meanQ (values : List ℚ) : ℚ :=
  values.sum / values.length

/-- Population variance of a list of rationals.  The spec's standard
deviation is its square root; std = 0 exactly when the variance is 0, and
the std-rule comparison |v - mean| > k * std is equivalent to
(v - mean)^2 > k^2 * variance for k ≥ 0, so the embedding works with the
variance to stay inside the rationals. -/
def variance (values : List ℚ) : ℚ :=
  (values.map (fun x => (x - meanQ values)^2)).sum / values.length

/-- Modelled from the spec: percentile by linear interpolation between
order statistics (spec section 4.1): with n sorted values, the p-th
percentile sits at rank h = p * (n - 1), interpolating linearly between
the two neighbouring order statistics.  Returns none on an empty list
(statistics of a fully-null column are absent, not fabricated). -/
def percentile (p : ℚ) (values : List ℚ) : Option ℚ :=
  if values = [] then none
  else
    let sorted := values.insertionSort (· ≤ ·)
    let n : ℚ := (values.length : ℚ)
    let h : ℚ := p * (n - 1)
    let lo : Nat := h.floor.toNat
    let frac : ℚ := h - (lo : ℚ)
    let vlo := sorted.getD lo 0
    let vhi := sorted.getD (lo + 1) vlo
    some (vlo + frac * (vhi - vlo))

/-- Median as the 50th percentile with linear interpolation. -/
def median (values : List ℚ) : Option ℚ :=
  percentile (1/2) values

/-- Modelled from the spec: OutlierDetector's std-rule (spec section 4.2):
flags v with |v - mean| > k * std; requires std > 0, and if std = 0
(constant column) flags nothing regardless of k.  Stated over the variance
(std^2); the comparison is squared accordingly. -/
def detectStd (k : ℚ) (values : List ℚ) : List ℚ :=
  if variance values = 0 then []
  else values.filter (fun v => decide ((v - meanQ values)^2 > k^2 * variance values))

/-- Modelled from the spec: OutlierDetector's IQR-rule (spec section 4.2):
IQR = P75 - P25; flags v < P25 - multiplier*IQR or v > P75 + multiplier*IQR. -/
def detectIQR (mult : ℚ) (values : List ℚ) : List ℚ :=
  match percentile (1/4) values, percentile (3/4) values with
  | some p25, some p75 =>
    let iqr := p75 - p25
    values.filter (fun v => decide (v < p25 - mult * iqr ∨ v > p75 + mult * iqr))
  | _, _ => []

/-- The two interchangeable outlier algorithms of spec section 4.2,
selected per call with their parameter. -/
inductive OutlierAlgorithm where
  | stdRule (k : ℚ)
  | iqrRule (mult : ℚ)
  deriving DecidableEq

/-- Modelled from the spec: OutlierDetector.detect dispatch
(spec section 4.2). -/
def detectOutliers : OutlierAlgorithm → List ℚ → List ℚ
  | .stdRule k, vs => detectStd k vs
  | .iqrRule m, vs => detectIQR m vs

/-- Modelled from the spec: PlaceholderDetector's frequency check
(spec section 4.3): a numeric value is flagged PLACEHOLDER_FREQUENCY when
it occurs in more than the threshold fraction of the column's non-null
rows and is simultaneously an outlier per the section 4.2 detector. -/
def frequencyCheck (thr : ℚ) (alg : OutlierAlgorithm) (cells : List Cell) : List ℚ :=
  let vs := numericValues cells
  vs.dedup.filter (fun v =>
    decide (((vs.count v : ℚ)) > thr * (vs.length : ℚ)) &&
    decide (v ∈ detectOutliers alg vs))

/-- Uniformity test of spec section 4.4 rule 4: the value distribution is
roughly uniform when the maximum frequency share is below twice the mean
share, i.e. maxFreq / total < 2 * (1 / distinct), cross-multiplied to stay
in the naturals. -/
def uniformish (freqs : List (Value × Nat)) : Bool :=
  let total := (freqs.map Prod.snd).sum
  let maxF := (freqs.map Prod.snd).foldr max 0
  decide (maxF * freqs.length < 2 * total)

/-- Modelled from the spec: the fixed precedence rules of spec section 4.4
deriving the recommended strategy from a column's profile (defaults come
from the caller's Config); a zero-row column yields no recommendation. -/
def recommend (cfg : Config) (p : ColumnProfile) : Option RemediationPolicy :=
  if p.rowCount = 0 then none
  else
    let nf : ℚ := (p.nullCount : ℚ) / (p.rowCount : ℚ)
    if nf > cfg.drop_column_threshold then some .DROP_COLUMN
    else if 0 < nf ∧ nf < cfg.drop_rows_threshold then some .DROP_ROWS
    else if p.ctype = .numeric ∧ 0 < nf then some .IMPUTE_MEDIAN
    else if p.ctype = .categorical ∧ 0 < nf then
      some (if uniformish p.freqs then .SENTINEL_CATEGORY ("missing") else .IMPUTE_MODE)
    else none

/-- Modelled from the spec: per-column diagnosis (spec section 3,
MissingnessReport) — the profile together with the recommended strategy. -/
structure MissingnessReport where
  profile : ColumnProfile
  recommendation : Option RemediationPolicy
  deriving DecidableEq

namespace MissingnessReport

/-- Modelled from the spec: MissingnessReport.build (spec section 4.4) —
profiles each column and derives its recommendation by the precedence
rules. -/
def build (ds : Dataset) (cfg : Config) : List (String × MissingnessReport) :=
  ds.cols.map (fun col =>
    let p := profileColumn col
    (col.name, ⟨p, recommend cfg p⟩))

end MissingnessReport

/-- Best-so-far scan for the mode: keeps the current champion unless a
strictly more frequent candidate appears (so the first-seen value wins
ties). -/
def modeBest (values : List Value) (a : Value) : List Value → Value
  | [] => a
  | v :: vs =>
    if values.count v > values.count a then modeBest values v vs
    else modeBest values a vs

/-- Mode of a list of values: a most frequent value (first-seen wins ties);
none only on the empty list. -/
def modeValue (values : List Value) : Option Value :=
  match values.dedup with
  | [] => none
  | v :: vs => some (modeBest values v vs)

namespace RemediationEngine

/-- First column with the given name, if any. -/
def findCol (ds : Dataset) (name : String) : Option Column :=
  ds.cols.find? (fun col => col.name == name)

/-- Modelled from the spec: validation of one column's policy against the
input dataset (spec sections 4.5 and 7): a missing column is a
SCHEMA_ERROR; imputing a column with zero non-null values is a
CONFIG_ERROR; IMPUTE_MEDIAN and BIN_NUMERIC on a column holding
non-numeric cells is a SCHEMA_ERROR; a sentinel label colliding with an
existing category is a CONFIG_ERROR; a non-positive bin width is a
CONFIG_ERROR. -/
def checkPolicy (ds : Dataset) (name : String) (p : RemediationPolicy) :
    Option EngineError :=
  match findCol ds name with
  | none => some .SCHEMA_ERROR
  | some col =>
    match p with
    | .IMPUTE_MEDIAN =>
        if nonNullValues col.cells = [] then some .CONFIG_ERROR
        else if (nonNullValues col.cells).all (fun v => (asNum v).isSome) then none
        else some .SCHEMA_ERROR
    | .IMPUTE_MODE =>
        if nonNullValues col.cells = [] then some .CONFIG_ERROR else none
    | .SENTINEL_CATEGORY label =>
        if (nonNullValues col.cells).contains (.cat label) then some .CONFIG_ERROR
        else none
    | .BIN_NUMERIC width =>
        if width ≤ 0 then some .CONFIG_ERROR
        else if (nonNullValues col.cells).all (fun v => (asNum v).isSome) then none
        else some .SCHEMA_ERROR
    | _ => none

/-- Column-local cell transformation of a policy (spec section 4.5),
computed from the input column so that the result is independent of the
order in which columns are processed.  DROP_COLUMN and DROP_ROWS leave the
cells to the dataset-level logic. -/
def transformCells (p : RemediationPolicy) (cells : List Cell) : List Cell :=
  match p with
  | .IMPUTE_MEDIAN =>
      match median (numericValues cells) with
      | some m => cells.map (fun c => some (c.getD (.num m)))
      | none => cells
  | .IMPUTE_MODE =>
      match modeValue (nonNullValues cells) with
      | some mv => cells.map (fun c => some (c.getD mv))
      | none => cells
  | .SENTINEL_CATEGORY label => cells.map (fun c => some (c.getD (.cat label)))
  | .BIN_NUMERIC width =>
      cells.map (fun c =>
        match c with
        | some v =>
          match asNum v with
          | some q => some (.cat ("bin_" ++ toString (q / width).floor))
          | none => some v
        | none => some (.cat ("missing_bucket")))
  | _ => cells

/-- Declared type of a column after a policy: BIN_NUMERIC converts the
column to a categorical column, everything else keeps the type. -/
def newType (p : RemediationPolicy) (t : ColType) : ColType :=
  match p with
  | .BIN_NUMERIC _ => .categorical
  | _ => t

/-- Row i survives the joint DROP_ROWS pass when every column whose policy
is DROP_ROWS is non-null at row i (spec section 4.5: rows are dropped in
lockstep across all columns). -/
def rowKept (ds : Dataset) (ps : List (String × RemediationPolicy)) (i : Nat) : Bool :=
  ds.cols.all (fun col =>
    match ps.lookup col.name with
    | some .DROP_ROWS => (col.cells.getD i none).isSome
    | _ => true)

/-- Keep the elements of a list whose (0-based) position starting at i
satisfies the predicate, preserving order. -/
def filterIdxFrom (keep : Nat → Bool) (i : Nat) : List α → List α
  | [] => []
  | x :: xs =>
    if keep i then x :: filterIdxFrom keep (i + 1) xs
    else filterIdxFrom keep (i + 1) xs

/-- Keep the elements of a list whose 0-based position satisfies the
predicate, preserving order. -/
def filterIdx (keep : Nat → Bool) (l : List α) : List α :=
  filterIdxFrom keep 0 l

/-- The successful result of RemediationEngine.apply: per column, drop it
(DROP_COLUMN), or transform its cells column-locally and then drop the
jointly-dropped rows; unspecified columns pass through the row drop
unchanged.  All statistics and the joint drop mask are computed from the
input dataset, so the result depends on the policy mapping only through
lookup — the order of application across columns cannot matter
(spec sections 4.5 and 8). -/
def applyOk (ds : Dataset) (ps : List (String × RemediationPolicy)) : Dataset :=
  ⟨ds.cols.filterMap (fun col =>
    match ps.lookup col.name with
    | none => some ⟨col.name, col.ctype, filterIdx (rowKept ds ps) col.cells⟩
    | some p =>
        if p = .DROP_COLUMN then none
        else some ⟨col.name, newType p col.ctype,
              filterIdx (rowKept ds ps) (transformCells p col.cells)⟩)⟩

/-- Modelled from the spec: RemediationEngine.apply (spec section 4.5) —
validates every column's policy first and transforms only when all
validations pass, so a failing invocation returns no output dataset at
all (spec section 7, all-or-nothing). -/
def apply (ds : Dataset) (ps : List (String × RemediationPolicy)) :
    Except EngineError Dataset :=
  match ps.filterMap (fun pr => checkPolicy ds pr.1 pr.2) with
  | [] => .ok (applyOk ds ps)
  | e :: _ => .error e

end RemediationEngine

/-- Select the entries of a list at exactly the positions where an aligned
mask column is non-null, preserving order: the lockstep row-drop of spec
section 4.5 described positionally. -/
def selectAligned : List (Option β) → List α → List α
  | m :: ms, x :: xs =>
    if m.isSome then x :: selectAligned ms xs else selectAligned ms xs
  | _, _ => []

namespace Notebook

/-- State of the numpy global random generator, as far as the notebook's
cell observes it: whatever the state is, np.random.seed(42) replaces it. -/
structure RngState where
  seed : Nat
  deriving DecidableEq

/-- The notebook's np.random.seed(42) call: resets the generator state,
discarding whatever state the generator had before. -/
def npRandomSeed (n : Nat) (_ : RngState) : RngState :=
  ⟨n⟩

/-- The notebook's only executable cell (src/index.ipynb cell-3): seed the
generator with 42, draw 10000000 normal samples, and compute their mean
and dispersion.  The sampler itself lives in numpy, outside this
repository, so it is taken as a parameter: any deterministic function
from generator state and sample count to a sample list.  The dispersion
returned is the variance; np.std is its square root, so two runs agree on
std exactly when they agree on the variance. -/
def cell3Run (draw : RngState → Nat → List ℚ) (s0 : RngState) : List ℚ × ℚ × ℚ :=
  let s1 := npRandomSeed 42 s0
  let data := draw s1 10000000
  (data, meanQ data, variance data)

end Notebook

/-!  Concrete fixtures used by the counterexample and witness theorems. -/

/-- A categorical column shaped like Titanic's Cabin: 687 nulls out of 891
rows. -/
def cabinLike : Column :=
  ⟨"Cabin", .categorical,
    List.replicate 687 none ++ List.replicate 204 (some (.cat ("C123")))⟩

/-- A numeric column shaped like Titanic's Age: 177 nulls out of 891 rows. -/
def ageLike : Column :=
  ⟨"Age", .numeric,
    List.replicate 177 none ++ List.replicate 714 (some (.num 30))⟩

/-- A categorical column shaped like Titanic's Embarked: 2 nulls out of 891
rows. -/
def embarkedLike : Column :=
  ⟨"Embarked", .categorical,
    List.replicate 2 none ++ List.replicate 889 (some (.cat ("S")))⟩

/-- A dataset with the three Titanic columns the spec's section 8 names. -/
def titanicLike : Dataset :=
  ⟨[cabinLike, ageLike, embarkedLike]⟩

/-- One categorical column with a null: the sentinel counterexample input. -/
def sentinelDs : Dataset :=
  ⟨[⟨"x", .categorical, [none, some (.cat ("a"))]⟩]⟩

/-- The sentinel policy with label "missing" on column x. -/
def sentinelPs : List (String × RemediationPolicy) :=
  [("x", .SENTINEL_CATEGORY ("missing"))]

/-- A null-free categorical dataset for the amended idempotence witness. -/
def sentinelFreeDs : Dataset :=
  ⟨[⟨"x", .categorical, [some (.cat ("a")), some (.cat ("b"))]⟩]⟩

/-- Two-column numeric/categorical dataset with one null in each column. -/
def smallDs : Dataset :=
  ⟨[⟨"x", .numeric, [some (.num 1), none, some (.num 3)]⟩,
    ⟨"y", .categorical, [some (.cat ("a")), some (.cat ("b")), none]⟩]⟩

/-- The first column of smallDs. -/
def smallDsX : Column :=
  ⟨"x", .numeric, [some (.num 1), none, some (.num 3)]⟩

/-- A constant numeric column with a null, for the std-rule witness. -/
def constCells : List Cell :=
  [some (.num 5), some (.num 5), none]

/-- A numeric column where the value 100 repeats and is an IQR outlier,
for the placeholder frequency witness. -/
def freqCells : List Cell :=
  [some (.num 1), some (.num 2), some (.num 3), some (.num 4), some (.num 5),
   some (.num 6), some (.num 7), some (.num 8), some (.num 100), some (.num 100)]

/-- The dataset smallDs after DROP_ROWS on column x and IMPUTE_MODE on
column y, for the order-independence witness. -/
def order4Out : Dataset :=
  ⟨[⟨"x", .numeric, [some (.num 1), some (.num 3)]⟩,
    ⟨"y", .categorical, [some (.cat ("a")), some (.cat ("a"))]⟩]⟩

/-!  Helper lemmas about the list-level building blocks. -/

theorem filterMap_eq_map_of {F : α → Option β} {g : α → β} :
    ∀ (l : List α), (∀ x ∈ l, F x = some (g x)) → l.filterMap F = l.map g
  | [], _ => rfl
  | x :: xs, h => by
    have hx := h x (List.mem_cons_self x xs)
    simp [List.filterMap_cons, hx,
      filterMap_eq_map_of xs (fun y hy => h y (List.mem_cons_of_mem x hy))]

theorem filterIdxFrom_succ (keep : Nat → Bool) :
    ∀ (i : Nat) (l : List α),
      RemediationEngine.filterIdxFrom keep (i + 1) l =
        RemediationEngine.filterIdxFrom (fun j => keep (j + 1)) i l
  | _, [] => rfl
  | i, x :: xs => by
    simp only [RemediationEngine.filterIdxFrom, filterIdxFrom_succ keep (i + 1) xs]

theorem filterIdxFrom_true {keep : Nat → Bool} (h : ∀ j, keep j = true) :
    ∀ (i : Nat) (l : List α), RemediationEngine.filterIdxFrom keep i l = l
  | _, [] => rfl
  | i, x :: xs => by
    simp only [RemediationEngine.filterIdxFrom, h i, if_true,
      filterIdxFrom_true h (i + 1) xs]

theorem filterIdx_getD :
    ∀ (mask : List (Option β)) (l : List α), mask.length = l.length →
      RemediationEngine.filterIdx (fun i => (mask.getD i none).isSome) l =
        selectAligned mask l
  | [], [], _ => rfl
  | [], _ :: _, h => absurd h (by simp)
  | _ :: _, [], h => absurd h (by simp)
  | m :: ms, x :: xs, h => by
    have ih := filterIdx_getD ms xs (by simpa using h)
    have hshift : RemediationEngine.filterIdxFrom
        (fun i => ((m :: ms).getD i none).isSome) 1 xs =
        RemediationEngine.filterIdx (fun i => (ms.getD i none).isSome) xs := by
      rw [show (1 : Nat) = 0 + 1 from rfl, filterIdxFrom_succ]
      rfl
    simp only [RemediationEngine.filterIdx, RemediationEngine.filterIdxFrom,
      List.getD_cons_zero, selectAligned, Nat.zero_add]
    rw [hshift, ih]

theorem selectAligned_self :
    ∀ (l : List (Option β)), selectAligned l l = l.filter (fun c => c.isSome)
  | [] => rfl
  | m :: ms => by
    cases hm : m.isSome <;>
      simp [selectAligned, List.filter_cons, hm, selectAligned_self ms]

theorem selectAligned_sublist :
    ∀ (mask : List (Option β)) (l : List α), List.Sublist (selectAligned mask l) l
  | [], l => by
    have h0 : selectAligned ([] : List (Option β)) l = [] := by
      cases l <;> rfl
    rw [h0]; exact List.nil_sublist l
  | _ :: _, [] => List.Sublist.refl []
  | m :: ms, x :: xs => by
    cases hm : m.isSome
    · simp only [selectAligned, hm, Bool.false_eq_true, if_false]
      exact (selectAligned_sublist ms xs).cons x
    · simp only [selectAligned, hm, if_true]
      exact (selectAligned_sublist ms xs).cons₂ x

theorem selectAligned_length :
    ∀ (mask : List (Option β)) (l : List α), mask.length = l.length →
      (selectAligned mask l).length = (mask.filter (fun c => c.isSome)).length
  | [], [], _ => rfl
  | [], _ :: _, h => absurd h (by simp)
  | _ :: _, [], h => absurd h (by simp)
  | m :: ms, x :: xs, h => by
    cases hm : m.isSome <;>
      simp [selectAligned, List.filter_cons, hm,
        selectAligned_length ms xs (by simpa using h)]

theorem lookup_pair_comm {a b : String} (pa pb : RemediationPolicy) (hab : a ≠ b)
    (n : String) :
    List.lookup n [(a, pa), (b, pb)] = List.lookup n [(b, pb), (a, pa)] := by
  cases hna : n == a <;> cases hnb : n == b <;>
    simp only [List.lookup, hna, hnb]
  exact absurd ((eq_of_beq hna).symm.trans (eq_of_beq hnb)) hab

theorem lookup_mem_snd {n : String} {v : β} :
    ∀ (ps : List (String × β)), List.lookup n ps = some v → v ∈ ps.map Prod.snd
  | [], h => by simp [List.lookup] at h
  | (k, w) :: rest, h => by
    cases hk : n == k
    · have h' : List.lookup n rest = some v := by
        simpa [List.lookup, hk] using h
      exact List.mem_cons_of_mem _ (lookup_mem_snd rest h')
    · have : w = v := by simpa [List.lookup, hk] using h
      subst this
      exact List.mem_cons_self _ _

theorem all_collapse {c : String} {col₀ : Column} (g : Column → Bool) :
    ∀ (cols : List Column), (cols.map Column.name).Nodup →
      cols.find? (fun col => col.name == c) = some col₀ →
      cols.all (fun col => if col.name == c then g col else true) = g col₀
  | [], _, hf => by simp at hf
  | col :: rest, hnd, hf => by
    have hnd' : (rest.map Column.name).Nodup := (List.nodup_cons.mp (by simpa using hnd)).2
    cases hcol : col.name == c
    · have hf' : rest.find? (fun col => col.name == c) = some col₀ := by
        simpa [List.find?_cons, hcol] using hf
      rw [List.all_cons]
      simp only [hcol, Bool.false_eq_true, if_false, Bool.true_and]
      exact all_collapse g rest hnd' hf'
    · have hceq : col₀ = col := by
        have h2 := hf
        simp [List.find?_cons, hcol] at h2
        exact h2.symm
      subst hceq
      have hname : col₀.name = c := eq_of_beq hcol
      have hnotmem : col₀.name ∉ rest.map Column.name :=
        (List.nodup_cons.mp (by simpa using hnd)).1
      have hrest : ∀ col' ∈ rest, (col'.name == c) = false := by
        intro col' hm
        have hne : col'.name ≠ c := by
          intro he
          exact hnotmem (by rw [hname, ← he]; exact List.mem_map_of_mem Column.name hm)
        exact beq_eq_false_iff_ne.mpr hne
      have hallrest : rest.all
          (fun col => if col.name == c then g col else true) = true := by
        rw [List.all_eq_true]
        intro col' hm
        simp only [hrest col' hm, Bool.false_eq_true, if_false]
      rw [List.all_cons, hallrest]
      simp only [hcol, if_true, Bool.and_true]

theorem unique_by_name {c : String} {col₀ : Column} :
    ∀ (cols : List Column), (cols.map Column.name).Nodup →
      cols.find? (fun col => col.name == c) = some col₀ →
      ∀ col ∈ cols, col.name = c → col = col₀
  | [], _, hf => by simp at hf
  | col :: rest, hnd, hf => by
    have hnd' : (rest.map Column.name).Nodup := (List.nodup_cons.mp (by simpa using hnd)).2
    intro col' hm hname'
    cases hcol : col.name == c
    · have hf' : rest.find? (fun col => col.name == c) = some col₀ := by
        simpa [List.find?_cons, hcol] using hf
      rcases List.mem_cons.mp hm with he | hm'
      · subst he
        exact absurd hname' (beq_eq_false_iff_ne.mp hcol)
      · exact unique_by_name rest hnd' hf' col' hm' hname'
    · have hceq : col₀ = col := by
        have h2 := hf
        simp [List.find?_cons, hcol] at h2
        exact h2.symm
      subst hceq
      have hname : col₀.name = c := eq_of_beq hcol
      have hnotmem : col₀.name ∉ rest.map Column.name :=
        (List.nodup_cons.mp (by simpa using hnd)).1
      rcases List.mem_cons.mp hm with he | hm'
      · exact he
      · exact absurd (by rw [hname, ← hname']; exact List.mem_map_of_mem Column.name hm')
          hnotmem

theorem rowKept_single_drop (ds : Dataset) (c : String) (col₀ : Column)
    (hnd : (ds.cols.map Column.name).Nodup)
    (hfind : RemediationEngine.findCol ds c = some col₀) (i : Nat) :
    RemediationEngine.rowKept ds [(c, .DROP_ROWS)] i =
      (col₀.cells.getD i none).isSome := by
  unfold RemediationEngine.rowKept
  have hfun : (fun col : Column =>
      match List.lookup col.name [(c, RemediationPolicy.DROP_ROWS)] with
      | some .DROP_ROWS => (col.cells.getD i none).isSome
      | _ => true) =
      (fun col : Column =>
        if col.name == c then (col.cells.getD i none).isSome else true) := by
    funext col
    cases hb : col.name == c <;> simp [List.lookup, hb]
  rw [hfun]
  exact all_collapse _ ds.cols hnd hfind

theorem rowKept_no_drop (ds : Dataset) (ps : List (String × RemediationPolicy))
    (h : ∀ v ∈ ps.map Prod.snd, v ≠ RemediationPolicy.DROP_ROWS) (i : Nat) :
    RemediationEngine.rowKept ds ps i = true := by
  unfold RemediationEngine.rowKept
  rw [List.all_eq_true]
  intro col _
  cases hl : List.lookup col.name ps with
  | none => rfl
  | some p =>
    have hp := h p (lookup_mem_snd ps hl)
    cases p <;> simp at hp ⊢

theorem apply_single_ok (ds : Dataset) (c : String) (p : RemediationPolicy)
    (h : RemediationEngine.checkPolicy ds c p = none) :
    RemediationEngine.apply ds [(c, p)] =
      .ok (RemediationEngine.applyOk ds [(c, p)]) := by
  simp [RemediationEngine.apply, List.filterMap_cons, h]

theorem apply_single_err (ds : Dataset) (c : String) (p : RemediationPolicy)
    (e : EngineError) (h : RemediationEngine.checkPolicy ds c p = some e) :
    RemediationEngine.apply ds [(c, p)] = .error e := by
  simp [RemediationEngine.apply, List.filterMap_cons, h]

theorem map_getD_of_all_some {v : Value} :
    ∀ (cells : List Cell), (∀ x ∈ cells, x.isSome) →
      cells.map (fun x => some (x.getD v)) = cells
  | [], _ => rfl
  | x :: xs, h => by
    cases x with
    | none => exact absurd (h none (List.mem_cons_self _ _)) (by simp)
    | some w =>
      simp only [List.map_cons, Option.getD_some]
      rw [map_getD_of_all_some xs (fun y hy => h y (List.mem_cons_of_mem _ hy))]

theorem percentile_isSome (p : ℚ) (values : List ℚ) (h : values ≠ []) :
    (percentile p values).isSome := by
  simp [percentile, h]

theorem modeValue_isSome (values : List Value) (h : values ≠ []) :
    (modeValue values).isSome := by
  unfold modeValue
  cases hd : values.dedup with
  | nil =>
    rw [List.dedup_eq_nil] at hd
    exact absurd hd h
  | cons v vs => rfl

theorem numericValues_ne_nil (cells : List Cell)
    (hne : nonNullValues cells ≠ [])
    (hnum : (nonNullValues cells).all (fun v => (asNum v).isSome)) :
    numericValues cells ≠ [] := by
  unfold numericValues
  cases hd : nonNullValues cells with
  | nil => exact absurd hd hne
  | cons v vs =>
    have hv : (asNum v).isSome := by
      have := (List.all_eq_true.mp hnum) v (by rw [hd]; exact List.mem_cons_self _ _)
      simpa using this
    cases ha : asNum v with
    | none => rw [ha] at hv; simp at hv
    | some q => simp [List.filterMap_cons, ha]

theorem applyOk_single_col (ds : Dataset) (c : String) (col₀ : Column)
    (p : RemediationPolicy) (newCells : List Cell)
    (hnd : (ds.cols.map Column.name).Nodup)
    (hfind : RemediationEngine.findCol ds c = some col₀)
    (hkeep : ∀ i, RemediationEngine.rowKept ds [(c, p)] i = true)
    (hdc : p ≠ .DROP_COLUMN)
    (htr : RemediationEngine.transformCells p col₀.cells = newCells)
    (hty : RemediationEngine.newType p col₀.ctype = col₀.ctype) :
    RemediationEngine.applyOk ds [(c, p)] =
      ⟨ds.cols.map (fun col =>
        if col.name = c then ⟨col.name, col.ctype, newCells⟩ else col)⟩ := by
  unfold RemediationEngine.applyOk
  congr 1
  apply filterMap_eq_map_of
  intro col hm
  cases hbe : col.name == c
  · have hlook : List.lookup col.name [(c, p)] = none := by
      simp [List.lookup, hbe]
    have hne : ¬ (col.name = c) := beq_eq_false_iff_ne.mp hbe
    simp only [hlook]
    rw [if_neg hne, RemediationEngine.filterIdx, filterIdxFrom_true hkeep]
  · have hcc : col.name = c := eq_of_beq hbe
    have hcol : col = col₀ := unique_by_name ds.cols hnd hfind col hm hcc
    subst hcol
    have hlook : List.lookup col.name [(c, p)] = some p := by
      simp [List.lookup, hbe]
    simp only [hlook, if_neg hdc]
    rw [if_pos hcc, htr, RemediationEngine.filterIdx, filterIdxFrom_true hkeep, hty]

/-- C6: RemediationEngine with IMPUTE_MEDIAN or IMPUTE_MODE on an existing
column of a dataset with distinct column names fails with CONFIG_ERROR
exactly when the column has zero non-null values, and on success replaces
only that column's null cells with one imputed value, leaving every
non-null cell and every other column unchanged. -/
theorem impute_null_cells_only (ds : Dataset) (c : String)
    (p : RemediationPolicy) (col₀ : Column)
    (hp : p = .IMPUTE_MEDIAN ∨ p = .IMPUTE_MODE)
    (hnd : (ds.cols.map Column.name).Nodup)
    (hfind : RemediationEngine.findCol ds c = some col₀) :
    (RemediationEngine.apply ds [(c, p)] = .error .CONFIG_ERROR ↔
      nonNullValues col₀.cells = []) ∧
    (∀ ds', RemediationEngine.apply ds [(c, p)] = .ok ds' →
      ∃ v, ds'.cols = ds.cols.map (fun col =>
        if col.name = c
        then ⟨col.name, col.ctype, col.cells.map (fun x => some (x.getD v))⟩
        else col)) := by
  have hkeep : ∀ i, RemediationEngine.rowKept ds [(c, p)] i = true := by
    intro i
    refine rowKept_no_drop ds _ ?_ i
    intro v hv
    rcases hp with hp | hp <;> subst hp <;> simp at hv <;> subst hv <;> decide
  rcases hp with hp | hp <;> subst hp
  · by_cases hnn : nonNullValues col₀.cells = []
    · have hchk : RemediationEngine.checkPolicy ds c .IMPUTE_MEDIAN =
          some .CONFIG_ERROR := by
        simp [RemediationEngine.checkPolicy, hfind, hnn]
      rw [apply_single_err ds c _ _ hchk]
      exact ⟨by simp [hnn], by intro ds' h; cases h⟩
    · by_cases hna : (nonNullValues col₀.cells).all (fun v => (asNum v).isSome)
      · have hchk : RemediationEngine.checkPolicy ds c .IMPUTE_MEDIAN = none := by
          simp [RemediationEngine.checkPolicy, hfind, hnn, hna]
        rw [apply_single_ok ds c _ hchk]
        constructor
        · constructor
          · intro h; cases h
          · intro h; exact absurd h hnn
        · intro ds' h
          have hds' : ds' = RemediationEngine.applyOk ds [(c, .IMPUTE_MEDIAN)] := by
            cases h; rfl
          subst hds'
          have hnum : numericValues col₀.cells ≠ [] :=
            numericValues_ne_nil col₀.cells hnn hna
          obtain ⟨m, hm⟩ :=
            Option.isSome_iff_exists.mp (percentile_isSome (1/2) _ hnum)
          refine ⟨.num m, ?_⟩
          have htr : RemediationEngine.transformCells .IMPUTE_MEDIAN col₀.cells =
              col₀.cells.map (fun x => some (x.getD (.num m))) := by
            unfold RemediationEngine.transformCells
            rw [show median (numericValues col₀.cells) = some m from hm]
          rw [applyOk_single_col ds c col₀ _ _ hnd hfind hkeep (by decide) htr rfl]
          apply List.map_congr_left
          intro col hm
          by_cases hcc : col.name = c
          · have hcol : col = col₀ := unique_by_name ds.cols hnd hfind col hm hcc
            subst hcol
            simp [hcc]
          · simp [hcc]
      · have hchk : RemediationEngine.checkPolicy ds c .IMPUTE_MEDIAN =
            some .SCHEMA_ERROR := by
          simp [RemediationEngine.checkPolicy, hfind, hnn, hna]
        rw [apply_single_err ds c _ _ hchk]
        constructor
        · constructor
          · intro h; cases h
          · intro h; exact absurd h hnn
        · intro ds' h; cases h
  · by_cases hnn : nonNullValues col₀.cells = []
    · have hchk : RemediationEngine.checkPolicy ds c .IMPUTE_MODE =
          some .CONFIG_ERROR := by
        simp [RemediationEngine.checkPolicy, hfind, hnn]
      rw [apply_single_err ds c _ _ hchk]
      exact ⟨by simp [hnn], by intro ds' h; cases h⟩
    · have hchk : RemediationEngine.checkPolicy ds c .IMPUTE_MODE = none := by
        simp [RemediationEngine.checkPolicy, hfind, hnn]
      rw [apply_single_ok ds c _ hchk]
      constructor
      · constructor
        · intro h; cases h
        · intro h; exact absurd h hnn
      · intro ds' h
        have hds' : ds' = RemediationEngine.applyOk ds [(c, .IMPUTE_MODE)] := by
          cases h; rfl
        subst hds'
        obtain ⟨mv, hmv⟩ :=
          Option.isSome_iff_exists.mp (modeValue_isSome (nonNullValues col₀.cells) hnn)
        refine ⟨mv, ?_⟩
        have htr : RemediationEngine.transformCells .IMPUTE_MODE col₀.cells =
            col₀.cells.map (fun x => some (x.getD mv)) := by
          unfold RemediationEngine.transformCells
          rw [show modeValue (nonNullValues col₀.cells) = some mv from hmv]
        rw [applyOk_single_col ds c col₀ _ _ hnd hfind hkeep (by decide) htr rfl]
        apply List.map_congr_left
        intro col hm
        by_cases hcc : col.name = c
        · have hcol : col = col₀ := unique_by_name ds.cols hnd hfind col hm hcc
          subst hcol
          simp [hcc]
        · simp [hcc]

/-- C3 counterexample: on a categorical column holding one null, applying
SENTINEL_CATEGORY("missing") twice is not the same as applying it once —
the first application succeeds and introduces the label as a category, so
the second fails with CONFIG_ERROR by the label-collision rule. -/
theorem sentinel_not_idempotent_counterexample :
    (RemediationEngine.apply sentinelDs sentinelPs).bind
        (fun d => RemediationEngine.apply d sentinelPs) ≠
      RemediationEngine.apply sentinelDs sentinelPs := by decide

/-- C3 (amended): applying RemediationEngine with SENTINEL_CATEGORY(label)
twice with the same label yields the same result as applying it once,
provided the targeted column contains no null cell (when it does contain
one, the first application succeeds and the second fails with
CONFIG_ERROR, because the label it introduced now collides with an
existing category). -/
theorem sentinel_idempotent_when_nullfree (ds : Dataset) (c lab : String)
    (hnd : (ds.cols.map Column.name).Nodup)
    (hfree : ∀ col ∈ ds.cols, col.name = c → ∀ cell ∈ col.cells, cell.isSome) :
    (RemediationEngine.apply ds [(c, .SENTINEL_CATEGORY lab)]).bind
        (fun d => RemediationEngine.apply d [(c, .SENTINEL_CATEGORY lab)]) =
      RemediationEngine.apply ds [(c, .SENTINEL_CATEGORY lab)] := by
  cases hfind : RemediationEngine.findCol ds c with
  | none =>
    have hchk : RemediationEngine.checkPolicy ds c (.SENTINEL_CATEGORY lab) =
        some .SCHEMA_ERROR := by
      simp [RemediationEngine.checkPolicy, hfind]
    rw [apply_single_err ds c _ _ hchk]
    rfl
  | some col₀ =>
    have hfind' : ds.cols.find? (fun col => col.name == c) = some col₀ := hfind
    have hmem : col₀ ∈ ds.cols := List.mem_of_find?_eq_some hfind'
    have hbeq : (col₀.name == c) = true :=
      @List.find?_some _ (fun col => col.name == c) col₀ ds.cols hfind'
    have hname : col₀.name = c := eq_of_beq hbeq
    have hsome : ∀ cell ∈ col₀.cells, cell.isSome := hfree col₀ hmem hname
    by_cases hcol : Value.cat lab ∈ nonNullValues col₀.cells
    · have hchk : RemediationEngine.checkPolicy ds c (.SENTINEL_CATEGORY lab) =
          some .CONFIG_ERROR := by
        simp [RemediationEngine.checkPolicy, hfind, hcol]
      rw [apply_single_err ds c _ _ hchk]
      rfl
    · have hchk : RemediationEngine.checkPolicy ds c (.SENTINEL_CATEGORY lab) =
          none := by
        simp [RemediationEngine.checkPolicy, hfind, hcol]
      have hkeep : ∀ i,
          RemediationEngine.rowKept ds [(c, .SENTINEL_CATEGORY lab)] i = true := by
        intro i
        refine rowKept_no_drop ds _ ?_ i
        intro v hv
        simp at hv
        subst hv
        intro h
        exact RemediationPolicy.noConfusion h
      have htr : RemediationEngine.transformCells
          (.SENTINEL_CATEGORY lab) col₀.cells = col₀.cells := by
        unfold RemediationEngine.transformCells
        exact map_getD_of_all_some col₀.cells hsome
      have happ : RemediationEngine.applyOk ds [(c, .SENTINEL_CATEGORY lab)] = ds := by
        rw [applyOk_single_col ds c col₀ _ _ hnd hfind hkeep
          (fun h => RemediationPolicy.noConfusion h) htr rfl]
        have hmc : ∀ col ∈ ds.cols,
            (if col.name = c
              then (⟨col.name, col.ctype, col₀.cells⟩ : Column)
              else col) = id col := by
          intro col hm
          by_cases hcc : col.name = c
          · have hcol2 : col = col₀ := unique_by_name ds.cols hnd hfind col hm hcc
            subst hcol2
            rw [if_pos hcc]
            rfl
          · rw [if_neg hcc]
            rfl
        rw [List.map_congr_left hmc, List.map_id]
      have happly : RemediationEngine.apply ds [(c, .SENTINEL_CATEGORY lab)] =
          .ok ds := by
        rw [apply_single_ok ds c _ hchk, happ]
      rw [happly]
      exact happly

/-- Witness for the amended C3 theorem at a concrete null-free dataset. -/
theorem sentinel_idempotent_when_nullfree_witness :
    (RemediationEngine.apply sentinelFreeDs sentinelPs).bind
        (fun d => RemediationEngine.apply d sentinelPs) =
      RemediationEngine.apply sentinelFreeDs sentinelPs :=
  sentinel_idempotent_when_nullfree sentinelFreeDs "x" "missing" (by decide) (by decide)

/-!  Claim theorems. -/

/-- C1: MissingnessReport.build derives every column's recommended strategy
by the fixed precedence rules of spec section 4.4 on that column's
profile, and with the default thresholds (drop_column_threshold 0.5,
drop_rows_threshold 0.05) a column with 687 nulls out of 891 rows gets
DROP_COLUMN, a numeric column with 177 nulls out of 891 rows gets
IMPUTE_MEDIAN, and a column with 2 nulls out of 891 rows gets DROP_ROWS. -/
theorem build_follows_precedence :
    (∀ (ds : Dataset) (cfg : Config),
      MissingnessReport.build ds cfg =
        ds.cols.map (fun col =>
          (col.name, ⟨profileColumn col, recommend cfg (profileColumn col)⟩))) ∧
    (MissingnessReport.build titanicLike defaultConfig).map
        (fun pr => (pr.1, pr.2.recommendation)) =
      [("Cabin", some .DROP_COLUMN), ("Age", some .IMPUTE_MEDIAN),
       ("Embarked", some .DROP_ROWS)] :=
  ⟨fun _ _ => rfl, by decide⟩

/-- C2: on the values [1,2,3,4,5,100] the linear-interpolation percentiles
give P25 = 2.25 and P75 = 4.75, hence IQR = 2.5, and the IQR rule with
multiplier 1.5 flags exactly the value 100 and nothing else. -/
theorem iqr_rule_example :
    percentile (1/4) [1, 2, 3, 4, 5, 100] = some (9/4) ∧
    percentile (3/4) [1, 2, 3, 4, 5, 100] = some (19/4) ∧
    (19/4 : ℚ) - 9/4 = 5/2 ∧
    detectIQR (3/2) [1, 2, 3, 4, 5, 100] = [100] :=
  ⟨by decide, by decide, by norm_num, by decide⟩

/-- C7: on a column whose non-null numeric values have zero standard
deviation (zero variance), the std-rule flags no outliers, whatever the
multiplier k is. -/
theorem std_rule_constant_flags_nothing (cells : List Cell) (k : ℚ)
    (h : variance (numericValues cells) = 0) :
    detectOutliers (.stdRule k) (numericValues cells) = [] := by
  simp [detectOutliers, detectStd, h]

/-- Witness for C7 on a concrete constant column. -/
theorem std_rule_constant_flags_nothing_witness :
    variance (numericValues constCells) = 0 ∧
      detectOutliers (.stdRule 3) (numericValues constCells) = [] :=
  ⟨by decide, std_rule_constant_flags_nothing constCells 3 (by decide)⟩

/-- C8: for a nonnegative threshold, the placeholder frequency check flags
a numeric value exactly when its occurrence count exceeds the threshold
fraction of the column's non-null numeric rows and the value is
simultaneously an outlier per the chosen section 4.2 detector. -/
theorem frequency_check_iff (cells : List Cell) (thr : ℚ) (alg : OutlierAlgorithm)
    (v : ℚ) (hthr : 0 ≤ thr) :
    v ∈ frequencyCheck thr alg cells ↔
      (((numericValues cells).count v : ℚ) >
          thr * ((numericValues cells).length : ℚ) ∧
        v ∈ detectOutliers alg (numericValues cells)) := by
  unfold frequencyCheck
  rw [List.mem_filter]
  simp only [Bool.and_eq_true, decide_eq_true_eq, List.mem_dedup]
  constructor
  · rintro ⟨_, hcount, hmem⟩
    exact ⟨hcount, hmem⟩
  · rintro ⟨hcount, hmem⟩
    refine ⟨?_, hcount, hmem⟩
    have hnonneg : (0 : ℚ) ≤ thr * ((numericValues cells).length : ℚ) :=
      mul_nonneg hthr (by positivity)
    have hpos : (0 : ℚ) < ((numericValues cells).count v : ℚ) :=
      lt_of_le_of_lt hnonneg hcount
    have hcpos : 0 < (numericValues cells).count v := by exact_mod_cast hpos
    exact List.count_pos_iff.mp hcpos

/-- Witness for C8: with the default 1% threshold and the IQR rule, the
repeated extreme value 100 of freqCells satisfies the characterization. -/
theorem frequency_check_iff_witness :
    ((100 : ℚ) ∈ frequencyCheck (1/100) (.iqrRule (3/2)) freqCells ↔
      (((numericValues freqCells).count 100 : ℚ) >
          (1/100) * ((numericValues freqCells).length : ℚ) ∧
        (100 : ℚ) ∈ detectOutliers (.iqrRule (3/2)) (numericValues freqCells))) :=
  frequency_check_iff freqCells (1/100) (.iqrRule (3/2)) 100 (by norm_num)

/-- C9: RemediationEngine.apply is all-or-nothing — it returns a dataset
exactly when every column's policy passes validation against the input
dataset; any failing policy makes the whole invocation return an error
and no output dataset (and, the engine being a pure function, the caller's
input dataset is never mutated). -/
theorem apply_all_or_nothing (ds : Dataset) (ps : List (String × RemediationPolicy)) :
    (∃ d, RemediationEngine.apply ds ps = .ok d) ↔
      ∀ pr ∈ ps, RemediationEngine.checkPolicy ds pr.1 pr.2 = none := by
  unfold RemediationEngine.apply
  cases he : ps.filterMap (fun pr => RemediationEngine.checkPolicy ds pr.1 pr.2) with
  | nil =>
    constructor
    · intro _
      exact List.filterMap_eq_nil_iff.mp he
    · intro _
      exact ⟨_, rfl⟩
  | cons e es =>
    constructor
    · rintro ⟨d, hd⟩
      exact absurd hd (by simp)
    · intro hall
      have hnil : ps.filterMap
          (fun pr => RemediationEngine.checkPolicy ds pr.1 pr.2) = [] :=
        List.filterMap_eq_nil_iff.mpr hall
      rw [hnil] at he
      cases he

/-- C10: the notebook's only executable cell seeds the numpy generator
with 42 before drawing its 10000000 normal samples, so whatever
deterministic sampler numpy provides and whatever state the generator had
before, two runs produce the identical data list and identical mean and
dispersion. -/
theorem cell3_deterministic (draw : Notebook.RngState → Nat → List ℚ)
    (s s' : Notebook.RngState) :
    Notebook.cell3Run draw s = Notebook.cell3Run draw s' := rfl

/-- C5: on a dataset with distinct column names and aligned row counts,
DROP_ROWS on an existing column keeps in that column exactly its non-null
cells, removes the same row positions from every other column, preserves
the relative order of surviving rows (a sublist), and leaves every column
with the same row count. -/
theorem drop_rows_lockstep (ds : Dataset) (c : String) (col₀ : Column)
    (hnd : (ds.cols.map Column.name).Nodup)
    (hfind : RemediationEngine.findCol ds c = some col₀)
    (hlen : ∀ col ∈ ds.cols, col.cells.length = col₀.cells.length) :
    RemediationEngine.apply ds [(c, .DROP_ROWS)] =
      .ok ⟨ds.cols.map (fun col =>
        ⟨col.name, col.ctype, selectAligned col₀.cells col.cells⟩)⟩ ∧
    selectAligned col₀.cells col₀.cells =
      col₀.cells.filter (fun cell => cell.isSome) ∧
    (∀ col ∈ ds.cols, List.Sublist (selectAligned col₀.cells col.cells) col.cells) ∧
    (∀ col ∈ ds.cols,
      (selectAligned col₀.cells col.cells).length =
        (col₀.cells.filter (fun cell => cell.isSome)).length) := by
  have hchk : RemediationEngine.checkPolicy ds c .DROP_ROWS = none := by
    simp [RemediationEngine.checkPolicy, hfind]
  have hkeepfun : RemediationEngine.rowKept ds [(c, .DROP_ROWS)] =
      (fun i => (col₀.cells.getD i none).isSome) :=
    funext (fun i => rowKept_single_drop ds c col₀ hnd hfind i)
  refine ⟨?_, selectAligned_self col₀.cells,
    fun col _ => selectAligned_sublist col₀.cells col.cells,
    fun col hm => selectAligned_length col₀.cells col.cells (hlen col hm).symm⟩
  rw [apply_single_ok ds c _ hchk]
  congr 1
  unfold RemediationEngine.applyOk
  congr 1
  apply filterMap_eq_map_of
  intro col hm
  cases hbe : col.name == c
  · have hlook : List.lookup col.name [(c, RemediationPolicy.DROP_ROWS)] = none := by
      simp [List.lookup, hbe]
    simp only [hlook]
    rw [hkeepfun, filterIdx_getD col₀.cells col.cells (hlen col hm).symm]
  · have hlook : List.lookup col.name [(c, RemediationPolicy.DROP_ROWS)] =
        some .DROP_ROWS := by
      simp [List.lookup, hbe]
    simp only [hlook, if_neg (show RemediationPolicy.DROP_ROWS ≠ .DROP_COLUMN by decide),
      RemediationEngine.transformCells, RemediationEngine.newType]
    rw [hkeepfun, filterIdx_getD col₀.cells col.cells (hlen col hm).symm]

/-- Witness for C5 on a concrete two-column dataset. -/
theorem drop_rows_lockstep_witness :
    RemediationEngine.apply smallDs [("x", .DROP_ROWS)] =
      .ok ⟨smallDs.cols.map (fun col =>
        ⟨col.name, col.ctype, selectAligned smallDsX.cells col.cells⟩)⟩ :=
  (drop_rows_lockstep smallDs "x" smallDsX (by decide) (by decide) (by decide)).1

/-- C4: for two distinct column names, one apply invocation processes
their two policies identically in either listing order: the same dataset
results exactly when the same dataset would result with the pair swapped
(all per-column statistics and the joint row-drop mask are computed from
the input dataset, so cross-column order cannot matter). -/
theorem apply_order_independent (ds : Dataset) (a b : String)
    (pa pb : RemediationPolicy) (d : Dataset) (hab : a ≠ b) :
    (RemediationEngine.apply ds [(a, pa), (b, pb)] = .ok d ↔
     RemediationEngine.apply ds [(b, pb), (a, pa)] = .ok d) := by
  have hlk : ∀ n, List.lookup n [(a, pa), (b, pb)] = List.lookup n [(b, pb), (a, pa)] :=
    lookup_pair_comm pa pb hab
  have hok : RemediationEngine.applyOk ds [(a, pa), (b, pb)] =
      RemediationEngine.applyOk ds [(b, pb), (a, pa)] := by
    unfold RemediationEngine.applyOk RemediationEngine.rowKept
    simp only [hlk]
  unfold RemediationEngine.apply
  cases hea : RemediationEngine.checkPolicy ds a pa with
  | none =>
    cases heb : RemediationEngine.checkPolicy ds b pb with
    | none =>
      simp only [List.filterMap_cons, hea, heb, List.filterMap_nil, hok]
    | some e =>
      simp [List.filterMap_cons, hea, heb]
  | some e =>
    cases heb : RemediationEngine.checkPolicy ds b pb with
    | none =>
      simp [List.filterMap_cons, hea, heb]
    | some f =>
      simp [List.filterMap_cons, hea, heb]

/-- Witness for C4 on a concrete dataset with DROP_ROWS and IMPUTE_MODE
policies on the two distinct columns. -/
theorem apply_order_independent_witness :
    (RemediationEngine.apply smallDs [("x", .DROP_ROWS), ("y", .IMPUTE_MODE)] =
        .ok order4Out ↔
      RemediationEngine.apply smallDs [("y", .IMPUTE_MODE), ("x", .DROP_ROWS)] =
        .ok order4Out) :=
  apply_order_independent smallDs "x" "y" .DROP_ROWS .IMPUTE_MODE order4Out (by decide)

/-- Witness for C6 on a concrete numeric column with a null. -/
theorem impute_null_cells_only_witness :
    (RemediationEngine.apply smallDs [("x", .IMPUTE_MEDIAN)] =
        .error .CONFIG_ERROR ↔
      nonNullValues smallDsX.cells = []) :=
  (impute_null_cells_only smallDs "x" _ smallDsX (Or.inl rfl)
    (by decide) (by decide)).1

end MissingData
